import Mathlib

/-!
Verification of the multi-agent game tester (`main.py`): a shallow
embedding of the data model, the four agents (Planner, Ranker, Executor,
Analyzer), the Orchestrator, and the three HTTP handlers, together with
theorems settling the spec's claims.

The browser (Playwright) is modelled as an oracle `env : BrowserOp → Bool`
telling, for each browser interaction, whether it succeeds.  The
filesystem is modelled as a list of created directories plus a journal of
file writes (newest first); the visible file state is the newest write per
path (`fsLookup`).
-/

/-- `TestStep` model (main.py lines 13-16): action, CSS target, optional value. -/
structure TestStep where
  action : String
  target : String
  value : String := ""
deriving DecidableEq, Repr

/-- `TestCase` model (main.py lines 18-20). -/
structure TestCase where
  name : String
  steps : List TestStep
deriving DecidableEq, Repr

/-- `TestReport` model (main.py lines 22-27). -/
structure TestReport where
  test_case : String
  verdict : String
  artifacts : List String
  reproducibility : Int
  notes : String
deriving DecidableEq, Repr

/-- Contents a file in the artifacts tree can hold: a screenshot (opaque
bytes) or a serialized `TestReport` (main.py lines 71 and 103-104). -/
inductive FileContent where
  | screenshot
  | report (r : TestReport)
deriving DecidableEq, Repr

/-- Filesystem state: created directories, and the journal of `(path,
content)` writes, newest first. -/
structure FileSystem where
  dirs : List String
  events : List (String × FileContent)
deriving DecidableEq, Repr

/-- The visible content at `p`: the newest write to `p`, if any. -/
def fsLookup (fs : FileSystem) (p : String) : Option FileContent :=
  (fs.events.find? (fun e => e.1 == p)).map (fun e => e.2)

/-- `os.makedirs(d, exist_ok=True)` (main.py lines 69 and 102). -/
def makedirs (fs : FileSystem) (d : String) : FileSystem :=
  if d ∈ fs.dirs then fs else { fs with dirs := d :: fs.dirs }

/-- A file write: prepend to the journal (newest first). -/
def writeFile (fs : FileSystem) (p : String) (c : FileContent) : FileSystem :=
  { fs with events := (p, c) :: fs.events }

/-- The empty filesystem: no directories, no writes. -/
def emptyFS : FileSystem := { dirs := [], events := [] }

/-- The i-th synthetic test case of the planner loop body
(main.py lines 38-45). -/
def planTest (i : Nat) : TestCase :=
  { name := "Test-" ++ toString (i + 1)
    steps :=
      [ { action := "click", target := "#start_button" }
      , { action := "input", target := "#input_1", value := toString i }
      , { action := "click", target := "#submit" } ] }

/-- `PlannerAgent.generate_tests` with the loop bound `range(count)` kept
as a parameter; the source (main.py line 37) instantiates it at 20. -/
def generate_tests_n (count : Nat) : List TestCase :=
  (List.range count).map planTest

/-- `PlannerAgent.generate_tests` (main.py lines 35-46): the loop runs
over `range(20)`. -/
def generate_tests : List TestCase := generate_tests_n 20

/-- `RankerAgent.rank_tests` (main.py lines 50-51): Python slice
`tests[:top_n]`.  A negative `top_n` counts from the end, clamped at 0. -/
def rank_tests (tests : List TestCase) (top_n : Int) : List TestCase :=
  if top_n < 0 then tests.take (tests.length - (-top_n).toNat)
  else tests.take top_n.toNat

/-- `AnalyzerAgent.analyze` (main.py lines 79-86). -/
def analyze (test : TestCase) (artifacts : List String) : TestReport :=
  { test_case := test.name
    verdict := "Pass"
    artifacts := artifacts
    reproducibility := 100
    notes := "Executed successfully" }

/-- One browser interaction issued to Playwright. -/
inductive BrowserOp where
  | launch
  | newPage
  | goto (url : String)
  | click (target : String)
  | fill (target : String) (value : String)
  | screenshot (path : String)
  | close
deriving DecidableEq, Repr

/-- The hard-coded URL the executor navigates to (main.py line 60). -/
def gameUrl : String := "https://play.ezygamers.com/"

/-- Screenshot path for a test name (main.py line 70). -/
def screenshotPath (name : String) : String :=
  "artifacts/screenshots/" ++ name ++ ".png"

/-- Report path for a test name (main.py lines 103 and 130). -/
def reportFilePath (name : String) : String :=
  "artifacts/reports/" ++ name ++ ".json"

/-- One iteration of the step loop (main.py lines 62-66): a "click" or
"input" action issues one browser interaction (failing if the oracle says
so); any other action issues none.  Returns the interactions issued. -/
def execStep (env : BrowserOp → Bool) (step : TestStep) :
    Except BrowserOp (List BrowserOp) :=
  if step.action = "click" then
    if env (BrowserOp.click step.target) then Except.ok [BrowserOp.click step.target]
    else Except.error (BrowserOp.click step.target)
  else if step.action = "input" then
    if env (BrowserOp.fill step.target step.value) then
      Except.ok [BrowserOp.fill step.target step.value]
    else Except.error (BrowserOp.fill step.target step.value)
  else Except.ok []

/-- The step loop of `ExecutorAgent.execute` (main.py lines 62-66),
collecting the browser interactions issued, stopping at the first fault. -/
def execSteps (env : BrowserOp → Bool) : List TestStep → Except BrowserOp (List BrowserOp)
  | [] => Except.ok []
  | s :: rest =>
    match execStep env s with
    | Except.error e => Except.error e
    | Except.ok ops =>
      match execSteps env rest with
      | Except.error e => Except.error e
      | Except.ok more => Except.ok (ops ++ more)

/-- `ExecutorAgent.execute` (main.py lines 55-75): launch, new page, goto,
replay steps, make the screenshots directory, take and save a screenshot,
close.  Any failing interaction propagates as an error; effects performed
before the fault remain in the filesystem. -/
def execute (env : BrowserOp → Bool) (fs : FileSystem) (test : TestCase) :
    FileSystem × Except BrowserOp (List String) :=
  if !env BrowserOp.launch then (fs, Except.error BrowserOp.launch)
  else if !env BrowserOp.newPage then (fs, Except.error BrowserOp.newPage)
  else if !env (BrowserOp.goto gameUrl) then (fs, Except.error (BrowserOp.goto gameUrl))
  else
    match execSteps env test.steps with
    | Except.error e => (fs, Except.error e)
    | Except.ok _ =>
      let fs1 := makedirs fs "artifacts/screenshots"
      let path := screenshotPath test.name
      if !env (BrowserOp.screenshot path) then (fs1, Except.error (BrowserOp.screenshot path))
      else
        let fs2 := writeFile fs1 path FileContent.screenshot
        if !env BrowserOp.close then (fs2, Except.error BrowserOp.close)
        else (fs2, Except.ok [path])

/-- `OrchestratorAgent.run_tests` (main.py lines 94-106): for each test,
execute, analyze, make the reports directory and persist the report; a
fault in `execute` aborts the loop and propagates. -/
def run_tests (env : BrowserOp → Bool) (fs : FileSystem) :
    List TestCase → FileSystem × Except BrowserOp (List TestReport)
  | [] => (fs, Except.ok [])
  | t :: rest =>
    match execute env fs t with
    | (fs1, Except.error e) => (fs1, Except.error e)
    | (fs1, Except.ok arts) =>
      let report := analyze t arts
      let fs2 := makedirs fs1 "artifacts/reports"
      let fs3 := writeFile fs2 (reportFilePath t.name) (FileContent.report report)
      match run_tests env fs3 rest with
      | (fs4, Except.error e) => (fs4, Except.error e)
      | (fs4, Except.ok reports) => (fs4, Except.ok (report :: reports))

/-- The `POST /execute_tests` handler (main.py lines 121-126): generate,
rank to `top_n` (default 3), run. -/
def execute_tests (env : BrowserOp → Bool) (fs : FileSystem) (top_n : Int) :
    FileSystem × Except BrowserOp (List TestReport) :=
  run_tests env fs (rank_tests generate_tests top_n)

/-- Outcome of `GET /report/{test_name}`: either the stored file content
or the not-found payload, both returned as a normal response. -/
inductive GetReportResult where
  | stored (c : FileContent)
  | errorPayload (msg : String)
deriving DecidableEq, Repr

/-- The `GET /report/{test_name}` handler (main.py lines 128-134): read
the file if it exists, else return `{"error": "Report not found"}`. -/
def get_report (fs : FileSystem) (test_name : String) : GetReportResult :=
  match fsLookup fs (reportFilePath test_name) with
  | some c => GetReportResult.stored c
  | none => GetReportResult.errorPayload "Report not found"

/-- Whether every interaction `execute` would issue for `test` succeeds
under `env` (so `execute` returns `ok`).  Mirrors the order of
interactions in `execute`. -/
def execOk (env : BrowserOp → Bool) (test : TestCase) : Bool :=
  env BrowserOp.launch && env BrowserOp.newPage && env (BrowserOp.goto gameUrl) &&
  (match execSteps env test.steps with
   | Except.ok _ => true
   | Except.error _ => false) &&
  env (BrowserOp.screenshot (screenshotPath test.name)) && env BrowserOp.close

/-- The screenshot write `execute` performs for `t`. -/
def ssEvent (t : TestCase) : String × FileContent :=
  (screenshotPath t.name, FileContent.screenshot)

/-- The report the pipeline produces for a test named `n` (the analyzer's
output depends only on the name and the screenshot path derived from it). -/
def reportForName (n : String) : TestReport :=
  { test_case := n
    verdict := "Pass"
    artifacts := [screenshotPath n]
    reproducibility := 100
    notes := "Executed successfully" }

/-- The report write `run_tests` performs for `t`. -/
def reportEvent (t : TestCase) : String × FileContent :=
  (reportFilePath t.name, FileContent.report (reportForName t.name))

/-- All file writes a fully successful `run_tests` performs, newest
first. -/
def writesOf : List TestCase → List (String × FileContent)
  | [] => []
  | t :: rest => writesOf rest ++ [reportEvent t, ssEvent t]

/-- The reports a fully successful `run_tests` returns. -/
def reportsOf (ts : List TestCase) : List TestReport :=
  ts.map (fun t => reportForName t.name)

/-- The report-file naming scheme is injective in the test name. -/
theorem reportFilePath_inj {a b : String} (h : reportFilePath a = reportFilePath b) :
    a = b := by
  unfold reportFilePath at h
  have hd := congrArg String.data h
  simp only [String.data_append] at hd
  have h2 := List.append_cancel_right hd
  have h3 := List.append_cancel_left h2
  cases a; cases b
  exact congrArg String.mk h3

/-- No screenshot path is ever a report path (the two directories differ). -/
theorem ss_ne_report (a b : String) : screenshotPath a ≠ reportFilePath b := by
  intro h
  unfold screenshotPath reportFilePath at h
  have hd := congrArg String.data h
  simp only [String.data_append] at hd
  have h10 := congrArg (fun l => l[10]?) hd
  simp at h10

theorem makedirs_events (fs : FileSystem) (d : String) :
    (makedirs fs d).events = fs.events := by
  unfold makedirs; split <;> rfl

theorem mem_makedirs (fs : FileSystem) (d : String) : d ∈ (makedirs fs d).dirs := by
  unfold makedirs; split
  · assumption
  · exact List.mem_cons_self _ _

/-- C1: for every count ≥ 0 the planner loop, run with bound `count`
(instantiated at 20 in the source), deterministically returns exactly
`count` test cases where the i-th is named `Test-{i+1}` and has exactly
the three steps: click the start button, fill `#input_1` with the literal
string of `i`, click submit; `generate_tests` is the `count = 20`
instance. -/
theorem planner_generate_spec (count i : Nat) (h : i < count)
    (hi : i < (generate_tests_n count).length) :
    (generate_tests_n count).length = count ∧
    (generate_tests_n count)[i] =
      { name := "Test-" ++ toString (i + 1)
        steps :=
          [ { action := "click", target := "#start_button", value := "" }
          , { action := "input", target := "#input_1", value := toString i }
          , { action := "click", target := "#submit", value := "" } ] } ∧
    generate_tests = generate_tests_n 20 := by
  refine ⟨by simp [generate_tests_n], ?_, rfl⟩
  simp [generate_tests_n, planTest]

/-- Witness for C1 at `count = 5`, `i = 3`. -/
theorem planner_generate_spec_witness :
    (generate_tests_n 5).length = 5 ∧ generate_tests = generate_tests_n 20 :=
  ⟨(planner_generate_spec 5 3 (by decide) (by decide)).1,
   (planner_generate_spec 5 3 (by decide) (by decide)).2.2⟩

/-- C2: for every nonnegative `top_n`, `rank_tests` returns the first
`min(top_n, len(tests))` elements in their original order; selecting 0
returns the empty sequence; selecting more than available returns all of
them, without error. -/
theorem ranker_select_spec (tests : List TestCase) (top_n : Int) (h : 0 ≤ top_n) :
    rank_tests tests top_n = tests.take top_n.toNat ∧
    (rank_tests tests top_n).length = min top_n.toNat tests.length ∧
    (top_n = 0 → rank_tests tests top_n = []) ∧
    ((tests.length : Int) ≤ top_n → rank_tests tests top_n = tests) := by
  have hnl : ¬top_n < 0 := not_lt.2 h
  have hmain : rank_tests tests top_n = tests.take top_n.toNat := by
    unfold rank_tests; rw [if_neg hnl]
  refine ⟨hmain, by rw [hmain]; simp, ?_, ?_⟩
  · rintro rfl; rw [hmain]; simp
  · intro hle
    rw [hmain]
    apply List.take_of_length_le
    omega

/-- Witness for C2: selecting 2 of the 20 generated tests, and selecting
25 of them. -/
theorem ranker_select_spec_witness :
    rank_tests generate_tests 2 = generate_tests.take 2 ∧
    rank_tests generate_tests 25 = generate_tests :=
  ⟨(ranker_select_spec generate_tests 2 (by decide)).1,
   (ranker_select_spec generate_tests 25 (by decide)).2.2.2 (by decide)⟩

/-- C3: the analyzer is a stub: for every test case and artifact list it
returns verdict "Pass", reproducibility 100, the test case's name and the
artifact list unchanged, independent of content or execution outcome. -/
theorem analyzer_spec (test : TestCase) (artifacts : List String) :
    analyze test artifacts =
      { test_case := test.name
        verdict := "Pass"
        artifacts := artifacts
        reproducibility := 100
        notes := "Executed successfully" } := rfl

/-- C5: `get_report` returns the stored content when the report file
exists and the payload `{"error": "Report not found"}` as a normal return
value (no exception, no HTTP error status: the handler is total) when it
does not. -/
theorem get_report_spec (fs : FileSystem) (test_name : String) :
    (fsLookup fs (reportFilePath test_name) = none →
      get_report fs test_name = GetReportResult.errorPayload "Report not found") ∧
    (∀ c, fsLookup fs (reportFilePath test_name) = some c →
      get_report fs test_name = GetReportResult.stored c) := by
  constructor
  · intro h; simp [get_report, h]
  · intro c h; simp [get_report, h]

/-- Witness for C5: lookup on the empty filesystem, and lookup after a
report write. -/
theorem get_report_spec_witness :
    get_report emptyFS "Test-1" = GetReportResult.errorPayload "Report not found" ∧
    get_report
        (writeFile emptyFS (reportFilePath "Test-1")
          (FileContent.report (reportForName "Test-1"))) "Test-1" =
      GetReportResult.stored (FileContent.report (reportForName "Test-1")) :=
  ⟨(get_report_spec emptyFS "Test-1").1 rfl,
   (get_report_spec
      (writeFile emptyFS (reportFilePath "Test-1")
        (FileContent.report (reportForName "Test-1"))) "Test-1").2
     (FileContent.report (reportForName "Test-1")) rfl⟩

/-- C6: a step whose action is neither "click" nor "input" issues no
browser interaction and raises no error, and the remaining steps execute
as if it were absent. -/
theorem executor_ignores_unknown_action (env : BrowserOp → Bool) (s : TestStep)
    (rest : List TestStep) (h1 : s.action ≠ "click") (h2 : s.action ≠ "input") :
    execStep env s = Except.ok [] ∧ execSteps env (s :: rest) = execSteps env rest := by
  have e1 : execStep env s = Except.ok [] := by simp [execStep, h1, h2]
  refine ⟨e1, ?_⟩
  have step : execSteps env (s :: rest) =
      match execStep env s with
      | Except.error e => Except.error e
      | Except.ok ops =>
        match execSteps env rest with
        | Except.error e => Except.error e
        | Except.ok more => Except.ok (ops ++ more) := rfl
  rw [step, e1]
  cases hs : execSteps env rest <;> simp

/-- Witness for C6 at a "hover" step. -/
theorem executor_ignores_unknown_action_witness :
    execStep (fun _ => true) { action := "hover", target := "#x", value := "" } =
      Except.ok [] ∧
    execSteps (fun _ => true)
        [{ action := "hover", target := "#x", value := "" },
         { action := "click", target := "#submit", value := "" }] =
      execSteps (fun _ => true) [{ action := "click", target := "#submit", value := "" }] :=
  executor_ignores_unknown_action (fun _ => true)
    { action := "hover", target := "#x", value := "" }
    [{ action := "click", target := "#submit", value := "" }]
    (by decide) (by decide)

/-- C10: for negative `top_n` with `-top_n ≤ len(tests)`, `rank_tests`
returns the first `len(tests) + top_n` elements (all but the last
`-top_n`), without error, and a nonempty result whenever
`-top_n < len(tests)`. -/
theorem rank_tests_negative (tests : List TestCase) (top_n : Int)
    (h1 : top_n < 0) (h2 : -top_n ≤ (tests.length : Int)) :
    rank_tests tests top_n = tests.take ((tests.length : Int) + top_n).toNat ∧
    (rank_tests tests top_n).length = ((tests.length : Int) + top_n).toNat ∧
    (-top_n < (tests.length : Int) → rank_tests tests top_n ≠ []) := by
  have hk : tests.length - (-top_n).toNat = ((tests.length : Int) + top_n).toNat := by
    omega
  unfold rank_tests
  simp only [if_pos h1]
  rw [hk]
  refine ⟨rfl, ?_, ?_⟩
  · rw [List.length_take]; omega
  · intro hlt hcon
    rw [List.take_eq_nil_iff] at hcon
    rcases hcon with hcon | hcon
    · omega
    · subst hcon; simp at h2; omega

/-- Witness for C10: selecting `-5` of the 20 generated tests. -/
theorem rank_tests_negative_witness :
    rank_tests generate_tests (-5) = generate_tests.take 15 ∧
    rank_tests generate_tests (-5) ≠ [] :=
  ⟨(rank_tests_negative generate_tests (-5) (by decide) (by decide)).1,
   (rank_tests_negative generate_tests (-5) (by decide) (by decide)).2.2 (by decide)⟩

/-- When every interaction for `test` succeeds, `execute` writes exactly
the screenshot (after making its directory) and returns its path. -/
theorem execute_of_execOk (env : BrowserOp → Bool) (test : TestCase)
    (h : execOk env test = true) (fs : FileSystem) :
    execute env fs test =
      ({ dirs := (makedirs fs "artifacts/screenshots").dirs
         events := ssEvent test :: fs.events },
       Except.ok [screenshotPath test.name]) := by
  unfold execOk at h
  simp only [Bool.and_eq_true] at h
  obtain ⟨⟨⟨⟨⟨h1, h2⟩, h3⟩, h4⟩, h5⟩, h6⟩ := h
  cases hs : execSteps env test.steps with
  | error e => rw [hs] at h4; simp at h4
  | ok ops =>
    simp [execute, h1, h2, h3, h5, h6, hs, writeFile, makedirs_events, ssEvent]

/-- Conversely, `execute` only returns `ok` when every interaction
succeeds. -/
theorem execOk_of_execute (env : BrowserOp → Bool) (test : TestCase) (fs : FileSystem)
    (arts : List String) (h : (execute env fs test).2 = Except.ok arts) :
    execOk env test = true := by
  cases h1 : env BrowserOp.launch
  · simp [execute, h1] at h
  · cases h2 : env BrowserOp.newPage
    · simp [execute, h1, h2] at h
    · cases h3 : env (BrowserOp.goto gameUrl)
      · simp [execute, h1, h2, h3] at h
      · cases hs : execSteps env test.steps with
        | error e => simp [execute, h1, h2, h3, hs] at h
        | ok ops =>
          cases h5 : env (BrowserOp.screenshot (screenshotPath test.name))
          · simp [execute, h1, h2, h3, hs, h5] at h
          · cases h6 : env BrowserOp.close
            · simp [execute, h1, h2, h3, hs, h5, h6] at h
            · simp [execOk, h1, h2, h3, hs, h5, h6]

/-- When some interaction for `test` fails, `execute` propagates an error
and has written at most the screenshot. -/
theorem execute_fail_of (env : BrowserOp → Bool) (test : TestCase)
    (h : execOk env test = false) (fs : FileSystem) :
    ∃ e, (execute env fs test).2 = Except.error e ∧
      ((execute env fs test).1.events = fs.events ∨
       (execute env fs test).1.events = ssEvent test :: fs.events) := by
  cases h1 : env BrowserOp.launch
  · exact ⟨BrowserOp.launch, by simp [execute, h1], Or.inl (by simp [execute, h1])⟩
  · cases h2 : env BrowserOp.newPage
    · exact ⟨BrowserOp.newPage, by simp [execute, h1, h2],
        Or.inl (by simp [execute, h1, h2])⟩
    · cases h3 : env (BrowserOp.goto gameUrl)
      · exact ⟨BrowserOp.goto gameUrl, by simp [execute, h1, h2, h3],
          Or.inl (by simp [execute, h1, h2, h3])⟩
      · cases hs : execSteps env test.steps with
        | error e =>
          exact ⟨e, by simp [execute, h1, h2, h3, hs],
            Or.inl (by simp [execute, h1, h2, h3, hs])⟩
        | ok ops =>
          cases h5 : env (BrowserOp.screenshot (screenshotPath test.name))
          · exact ⟨BrowserOp.screenshot (screenshotPath test.name),
              by simp [execute, h1, h2, h3, hs, h5],
              Or.inl (by simp [execute, h1, h2, h3, hs, h5, makedirs_events])⟩
          · cases h6 : env BrowserOp.close
            · exact ⟨BrowserOp.close,
                by simp [execute, h1, h2, h3, hs, h5, h6],
                Or.inr (by
                  simp [execute, h1, h2, h3, hs, h5, h6, writeFile,
                    makedirs_events, ssEvent])⟩
            · rw [execOk, h1, h2, h3, hs, h5, h6] at h; simp at h

/-- C7: a successful `execute` creates the screenshots directory if
absent, writes exactly one screenshot file at
`artifacts/screenshots/{test_name}.png`, and returns that path as the
singleton artifact list. -/
theorem executor_artifacts_spec (env : BrowserOp → Bool) (fs : FileSystem)
    (test : TestCase) (arts : List String)
    (h : (execute env fs test).2 = Except.ok arts) :
    arts = [screenshotPath test.name] ∧
    (execute env fs test).1.events =
      (screenshotPath test.name, FileContent.screenshot) :: fs.events ∧
    "artifacts/screenshots" ∈ (execute env fs test).1.dirs := by
  have hok := execOk_of_execute env test fs arts h
  have he := execute_of_execOk env test hok fs
  rw [he] at h
  simp only [Except.ok.injEq] at h
  refine ⟨h.symm, by rw [he]; rfl, ?_⟩
  rw [he]
  exact mem_makedirs fs "artifacts/screenshots"

/-- Witness for C7: the first generated test under an always-succeeding
browser, on the empty filesystem. -/
theorem executor_artifacts_spec_witness :
    (execute (fun _ => true) emptyFS (planTest 0)).1.events =
      [(screenshotPath "Test-1", FileContent.screenshot)] ∧
    "artifacts/screenshots" ∈ (execute (fun _ => true) emptyFS (planTest 0)).1.dirs :=
  ⟨(executor_artifacts_spec (fun _ => true) emptyFS (planTest 0)
      [screenshotPath "Test-1"] rfl).2.1,
   (executor_artifacts_spec (fun _ => true) emptyFS (planTest 0)
      [screenshotPath "Test-1"] rfl).2.2⟩

/-- C4: when every browser interaction succeeds, `execute_tests` with the
default `top_n = 3` returns exactly the three reports for "Test-1",
"Test-2", "Test-3" in order, each with verdict "Pass" and reproducibility
100, and writes exactly 3 screenshot files and 3 report files. -/
theorem execute_tests_default_spec (env : BrowserOp → Bool)
    (h : ∀ op, env op = true) :
    execute_tests env emptyFS 3 =
      ({ dirs := ["artifacts/reports", "artifacts/screenshots"]
         events :=
           [ (reportFilePath "Test-3", FileContent.report (reportForName "Test-3"))
           , (screenshotPath "Test-3", FileContent.screenshot)
           , (reportFilePath "Test-2", FileContent.report (reportForName "Test-2"))
           , (screenshotPath "Test-2", FileContent.screenshot)
           , (reportFilePath "Test-1", FileContent.report (reportForName "Test-1"))
           , (screenshotPath "Test-1", FileContent.screenshot) ] },
       Except.ok [reportForName "Test-1", reportForName "Test-2", reportForName "Test-3"]) ∧
    (reportForName "Test-1").verdict = "Pass" ∧
    (reportForName "Test-1").reproducibility = 100 ∧
    (reportForName "Test-2").verdict = "Pass" ∧
    (reportForName "Test-2").reproducibility = 100 ∧
    (reportForName "Test-3").verdict = "Pass" ∧
    (reportForName "Test-3").reproducibility = 100 := by
  have henv : env = fun _ => true := funext h
  subst henv
  exact ⟨rfl, rfl, rfl, rfl, rfl, rfl, rfl⟩

/-- Witness for C4 under the always-succeeding browser. -/
theorem execute_tests_default_spec_witness :
    execute_tests (fun _ => true) emptyFS 3 =
      ({ dirs := ["artifacts/reports", "artifacts/screenshots"]
         events :=
           [ (reportFilePath "Test-3", FileContent.report (reportForName "Test-3"))
           , (screenshotPath "Test-3", FileContent.screenshot)
           , (reportFilePath "Test-2", FileContent.report (reportForName "Test-2"))
           , (screenshotPath "Test-2", FileContent.screenshot)
           , (reportFilePath "Test-1", FileContent.report (reportForName "Test-1"))
           , (screenshotPath "Test-1", FileContent.screenshot) ] },
       Except.ok [reportForName "Test-1", reportForName "Test-2", reportForName "Test-3"]) :=
  (execute_tests_default_spec (fun _ => true) (fun _ => rfl)).1

/-- Unfolding equation of `run_tests` on a nonempty list. -/
theorem run_tests_cons (env : BrowserOp → Bool) (fs : FileSystem) (t : TestCase)
    (rest : List TestCase) :
    run_tests env fs (t :: rest) =
      match execute env fs t with
      | (fs1, Except.error e) => (fs1, Except.error e)
      | (fs1, Except.ok arts) =>
        match run_tests env
            (writeFile (makedirs fs1 "artifacts/reports") (reportFilePath t.name)
              (FileContent.report (analyze t arts))) rest with
        | (fs4, Except.error e) => (fs4, Except.error e)
        | (fs4, Except.ok reports) => (fs4, Except.ok (analyze t arts :: reports)) := rfl

/-- A fully successful batch writes exactly `writesOf ts` (newest first)
on top of the starting journal and returns `reportsOf ts`. -/
theorem run_tests_ok_of (env : BrowserOp → Bool) (ts : List TestCase)
    (hall : ∀ t ∈ ts, execOk env t = true) (fs : FileSystem) :
    (run_tests env fs ts).1.events = writesOf ts ++ fs.events ∧
    (run_tests env fs ts).2 = Except.ok (reportsOf ts) := by
  induction ts generalizing fs with
  | nil => exact ⟨rfl, rfl⟩
  | cons t rest ih =>
    have ht : execOk env t = true := hall t (List.mem_cons_self t rest)
    have he := execute_of_execOk env t ht fs
    rw [run_tests_cons, he]
    dsimp only
    have ihall : ∀ t' ∈ rest, execOk env t' = true :=
      fun t' ht' => hall t' (List.mem_cons_of_mem t ht')
    rcases hrun : run_tests env
        (writeFile
          (makedirs
            { dirs := (makedirs fs "artifacts/screenshots").dirs
              events := ssEvent t :: fs.events } "artifacts/reports")
          (reportFilePath t.name)
          (FileContent.report (analyze t [screenshotPath t.name]))) rest with ⟨fs4, r2⟩
    have hrec := ih ihall
      (writeFile
        (makedirs
          { dirs := (makedirs fs "artifacts/screenshots").dirs
            events := ssEvent t :: fs.events } "artifacts/reports")
        (reportFilePath t.name)
        (FileContent.report (analyze t [screenshotPath t.name])))
    rw [hrun] at hrec
    obtain ⟨hev, hr2⟩ := hrec
    dsimp only at hev hr2
    subst hr2
    dsimp only
    constructor
    · rw [hev]
      simp [writesOf, writeFile, makedirs_events, ssEvent, reportEvent,
        reportForName, analyze, List.append_assoc]
    · simp [reportsOf, analyze, reportForName]

/-- A batch that returns `ok` had every per-test interaction succeed, and
its reports are exactly `reportsOf ts`. -/
theorem run_ok_inv (env : BrowserOp → Bool) (ts : List TestCase) :
    ∀ fs fs' rs, run_tests env fs ts = (fs', Except.ok rs) →
      (∀ t ∈ ts, execOk env t = true) ∧ rs = reportsOf ts := by
  induction ts with
  | nil =>
    intro fs fs' rs h
    simp [run_tests] at h
    exact ⟨by simp, by simp [h.2.symm, reportsOf]⟩
  | cons t rest ih =>
    intro fs fs' rs h
    rw [run_tests_cons] at h
    rcases hexe : execute env fs t with ⟨fs1, r1⟩
    rw [hexe] at h
    cases r1 with
    | error e => simp at h
    | ok arts =>
      have hok : execOk env t = true :=
        execOk_of_execute env t fs arts (by rw [hexe])
      have harts : arts = [screenshotPath t.name] := by
        have hee := execute_of_execOk env t hok fs
        rw [hexe] at hee
        simp only [Prod.mk.injEq, Except.ok.injEq] at hee
        exact hee.2
      dsimp only at h
      rcases hrun : run_tests env
          (writeFile (makedirs fs1 "artifacts/reports") (reportFilePath t.name)
            (FileContent.report (analyze t arts))) rest with ⟨fs4, r2⟩
      rw [hrun] at h
      cases r2 with
      | error e => simp at h
      | ok rep =>
        simp only [Prod.mk.injEq, Except.ok.injEq] at h
        obtain ⟨hall, hrep⟩ := ih _ _ _ hrun
        refine ⟨?_, ?_⟩
        · intro t' ht'
          rcases List.mem_cons.1 ht' with hq | hq
          · subst hq; exact hok
          · exact hall t' hq
        · rw [← h.2, hrep, harts]
          simp [reportsOf, analyze, reportForName]

/-- When the k-th test's interactions fail (the first k succeeding), the
batch aborts with an error after writing exactly the first k tests'
files (plus at most the k-th screenshot). -/
theorem run_tests_fail_of (env : BrowserOp → Bool) (ts : List TestCase) :
    ∀ (k : Nat) (hk : k < ts.length) (fs : FileSystem),
      (∀ i (hi : i < ts.length), i < k → execOk env (ts.get ⟨i, hi⟩) = true) →
      execOk env (ts.get ⟨k, hk⟩) = false →
      (∃ e, (run_tests env fs ts).2 = Except.error e) ∧
      ((run_tests env fs ts).1.events = writesOf (ts.take k) ++ fs.events ∨
       (run_tests env fs ts).1.events =
         ssEvent (ts.get ⟨k, hk⟩) :: (writesOf (ts.take k) ++ fs.events)) := by
  induction ts with
  | nil => intro k hk; exact absurd hk (by simp)
  | cons t rest ih =>
    intro k hk fs hpre hfail
    cases k with
    | zero =>
      obtain ⟨e, he2, hev⟩ := execute_fail_of env t hfail fs
      rw [run_tests_cons]
      rcases hexe : execute env fs t with ⟨fs1, r1⟩
      rw [hexe] at he2 hev
      dsimp only at he2 hev
      subst he2
      dsimp only
      refine ⟨⟨e, rfl⟩, ?_⟩
      simpa [writesOf] using hev
    | succ k' =>
      have ht : execOk env t = true := hpre 0 (by simp) (Nat.succ_pos k')
      have he := execute_of_execOk env t ht fs
      rw [run_tests_cons, he]
      dsimp only
      have hk' : k' < rest.length := Nat.lt_of_succ_lt_succ hk
      have hpre' : ∀ i (hi : i < rest.length), i < k' →
          execOk env (rest.get ⟨i, hi⟩) = true :=
        fun i hi hik => hpre (i + 1) (Nat.succ_lt_succ hi) (Nat.succ_lt_succ hik)
      have hfail' : execOk env (rest.get ⟨k', hk'⟩) = false := hfail
      obtain ⟨⟨e, he2⟩, hev⟩ := ih k' hk'
        (writeFile
          (makedirs
            { dirs := (makedirs fs "artifacts/screenshots").dirs
              events := ssEvent t :: fs.events } "artifacts/reports")
          (reportFilePath t.name)
          (FileContent.report (analyze t [screenshotPath t.name]))) hpre' hfail'
      rcases hrun : run_tests env
          (writeFile
            (makedirs
              { dirs := (makedirs fs "artifacts/screenshots").dirs
                events := ssEvent t :: fs.events } "artifacts/reports")
            (reportFilePath t.name)
            (FileContent.report (analyze t [screenshotPath t.name]))) rest with ⟨fs4, r2⟩
      rw [hrun] at he2 hev
      dsimp only at he2 hev
      subst he2
      dsimp only
      refine ⟨⟨e, rfl⟩, ?_⟩
      rcases hev with hev | hev
      · left
        rw [hev]
        simp [writesOf, writeFile, makedirs_events, ssEvent, reportEvent,
          reportForName, analyze, List.append_assoc]
      · right
        rw [hev]
        simp [writesOf, writeFile, makedirs_events, ssEvent, reportEvent,
          reportForName, analyze, List.append_assoc]

/-- Looking up a report path in the writes of a batch: present with the
canonical content exactly when some test of the batch has that name. -/
theorem find?_writesOf (ts : List TestCase) (n : String)
    (E : List (String × FileContent)) :
    (writesOf ts ++ E).find? (fun e => e.1 == reportFilePath n) =
      (if n ∈ ts.map TestCase.name
       then some (reportFilePath n, FileContent.report (reportForName n))
       else E.find? (fun e => e.1 == reportFilePath n)) := by
  induction ts generalizing E with
  | nil => simp [writesOf]
  | cons t rest ih =>
    have hassoc : writesOf (t :: rest) ++ E =
        writesOf rest ++ ([reportEvent t, ssEvent t] ++ E) := by
      simp [writesOf, List.append_assoc]
    rw [hassoc, ih]
    by_cases hrest : n ∈ rest.map TestCase.name
    · rw [if_pos hrest, if_pos (by simp only [List.map_cons, List.mem_cons]; exact Or.inr hrest)]
    · rw [if_neg hrest]
      by_cases hn : t.name = n
      · subst hn
        rw [List.cons_append, List.find?_cons_of_pos _ (by simp [reportEvent])]
        rw [if_pos (by simp)]
        rfl
      · rw [List.cons_append,
          List.find?_cons_of_neg _ (by
            simp only [reportEvent, beq_iff_eq]
            exact fun hc => hn (reportFilePath_inj hc)),
          List.cons_append,
          List.find?_cons_of_neg _ (by
            simp only [ssEvent, beq_iff_eq]
            exact ss_ne_report t.name n),
          List.nil_append,
          if_neg (by
            simp only [List.map_cons, List.mem_cons]
            rintro (hc | hc)
            · exact hn hc.symm
            · exact hrest hc)]

/-- Re-listing the same write journal on top of itself does not change
any lookup result. -/
theorem find?_dup (p : String × FileContent → Bool)
    (W E : List (String × FileContent)) :
    (W ++ (W ++ E)).find? p = (W ++ E).find? p := by
  cases hw : W.find? p <;> simp [List.find?_append, hw]

/-- C8: starting from a fresh filesystem, if the k-th selected test's
`execute` call fails (the earlier ones succeeding) and test names are
distinct, the orchestrator propagates the fault and aborts the batch: the
run returns an error, report files exist for exactly the tests before the
k-th, and no report file exists for the k-th or any later test. -/
theorem orchestrator_abort_spec (env : BrowserOp → Bool) (ts : List TestCase)
    (k : Nat) (hk : k < ts.length)
    (hnd : (ts.map TestCase.name).Nodup)
    (hpre : ∀ i (hi : i < ts.length), i < k → execOk env (ts.get ⟨i, hi⟩) = true)
    (hfail : execOk env (ts.get ⟨k, hk⟩) = false) :
    (∃ e, (run_tests env emptyFS ts).2 = Except.error e) ∧
    (∀ i (hi : i < ts.length), i < k →
      fsLookup (run_tests env emptyFS ts).1 (reportFilePath (ts.get ⟨i, hi⟩).name) =
        some (FileContent.report (reportForName (ts.get ⟨i, hi⟩).name))) ∧
    (∀ j (hj : j < ts.length), k ≤ j →
      fsLookup (run_tests env emptyFS ts).1 (reportFilePath (ts.get ⟨j, hj⟩).name) =
        none) := by
  obtain ⟨herr, hev⟩ := run_tests_fail_of env ts k hk emptyFS hpre hfail
  have key : ∀ n : String,
      fsLookup (run_tests env emptyFS ts).1 (reportFilePath n) =
        (if n ∈ (ts.take k).map TestCase.name
         then some (FileContent.report (reportForName n)) else none) := by
    intro n
    unfold fsLookup
    rcases hev with hev | hev <;> rw [hev]
    · rw [find?_writesOf]
      split
      · rfl
      · simp [emptyFS]
    · rw [List.find?_cons_of_neg _ (by
        simp only [ssEvent, beq_iff_eq]
        exact ss_ne_report _ n)]
      rw [find?_writesOf]
      split
      · rfl
      · simp [emptyFS]
  refine ⟨herr, ?_, ?_⟩
  · intro i hi hik
    have hlen : i < (ts.take k).length := by
      rw [List.length_take]; omega
    have hm := List.get_mem (ts.take k) i hlen
    have hgt : (ts.take k).get ⟨i, hlen⟩ = ts.get ⟨i, hi⟩ := by simp
    rw [hgt] at hm
    rw [key, if_pos (List.mem_map.2 ⟨ts.get ⟨i, hi⟩, hm, rfl⟩)]
  · intro j hj hjk
    rw [key, if_neg]
    intro hmem
    rw [List.map_take] at hmem
    obtain ⟨i, hieq⟩ := List.mem_iff_getElem?.1 hmem
    rw [List.getElem?_take] at hieq
    by_cases hik : i < k
    · rw [if_pos hik] at hieq
      have hj2 : (ts.map TestCase.name)[j]? = some ((ts.get ⟨j, hj⟩).name) := by
        rw [List.getElem?_map, List.getElem?_eq_getElem hj]
        simp
      have hij : i = j :=
        List.getElem?_inj (by rw [List.length_map]; omega) hnd (hieq.trans hj2.symm)
      omega
    · rw [if_neg hik] at hieq
      exact Option.noConfusion hieq

/-- A browser oracle that fails exactly the input interaction of the
second generated test ("Test-2" fills `#input_1` with "1"). -/
def envFailSecond : BrowserOp → Bool := fun op =>
  match op with
  | BrowserOp.fill "#input_1" "1" => false
  | _ => true

/-- The three tests selected by the default `top_n = 3`. -/
def selectedThree : List TestCase := rank_tests generate_tests 3

/-- Witness for C8: the second of the three selected tests fails, so the
first test's report exists and no report exists for the second or third. -/
theorem orchestrator_abort_spec_witness :
    fsLookup (run_tests envFailSecond emptyFS selectedThree).1
        (reportFilePath "Test-1") =
      some (FileContent.report (reportForName "Test-1")) ∧
    fsLookup (run_tests envFailSecond emptyFS selectedThree).1
        (reportFilePath "Test-2") = none ∧
    fsLookup (run_tests envFailSecond emptyFS selectedThree).1
        (reportFilePath "Test-3") = none :=
  ⟨(orchestrator_abort_spec envFailSecond selectedThree 1 (by decide) (by decide)
      (by decide) (by decide)).2.1 0 (by decide) (by decide),
   (orchestrator_abort_spec envFailSecond selectedThree 1 (by decide) (by decide)
      (by decide) (by decide)).2.2 1 (by decide) (by decide),
   (orchestrator_abort_spec envFailSecond selectedThree 1 (by decide) (by decide)
      (by decide) (by decide)).2.2 2 (by decide) (by decide)⟩

/-- C9: a second successful `execute_tests` call with the same `top_n`
writes to the same report paths, overwriting the first call's files with
the same contents: it returns the same reports and leaves every path of
the filesystem with the same visible content as after the first call. -/
theorem execute_tests_overwrite_spec (env : BrowserOp → Bool) (fs0 : FileSystem)
    (top_n : Int) (rs : List TestReport)
    (h : (execute_tests env fs0 top_n).2 = Except.ok rs) :
    (execute_tests env (execute_tests env fs0 top_n).1 top_n).2 = Except.ok rs ∧
    ∀ p, fsLookup (execute_tests env (execute_tests env fs0 top_n).1 top_n).1 p =
      fsLookup (execute_tests env fs0 top_n).1 p := by
  unfold execute_tests at h ⊢
  rcases hrun : run_tests env fs0 (rank_tests generate_tests top_n) with ⟨fs1, r⟩
  rw [hrun] at h
  dsimp only at h ⊢
  subst h
  obtain ⟨hall, hrs⟩ := run_ok_inv env _ fs0 fs1 rs hrun
  obtain ⟨hev1, _⟩ := run_tests_ok_of env _ hall fs0
  rw [hrun] at hev1
  dsimp only at hev1
  obtain ⟨hev2, hr2⟩ := run_tests_ok_of env (rank_tests generate_tests top_n) hall fs1
  constructor
  · rw [hr2, hrs]
  · intro p
    unfold fsLookup
    rw [hev2, hev1]
    exact congrArg (Option.map fun e => e.2)
      (find?_dup (fun e => e.1 == p) (writesOf (rank_tests generate_tests top_n))
        fs0.events)

/-- Witness for C9: two runs under the always-succeeding browser with the
default `top_n = 3`. -/
theorem execute_tests_overwrite_spec_witness :
    (execute_tests (fun _ => true)
        (execute_tests (fun _ => true) emptyFS 3).1 3).2 =
      Except.ok [reportForName "Test-1", reportForName "Test-2", reportForName "Test-3"] ∧
    fsLookup (execute_tests (fun _ => true)
        (execute_tests (fun _ => true) emptyFS 3).1 3).1
        (reportFilePath "Test-1") =
      fsLookup (execute_tests (fun _ => true) emptyFS 3).1 (reportFilePath "Test-1") :=
  ⟨(execute_tests_overwrite_spec (fun _ => true) emptyFS 3
      [reportForName "Test-1", reportForName "Test-2", reportForName "Test-3"] rfl).1,
   (execute_tests_overwrite_spec (fun _ => true) emptyFS 3
      [reportForName "Test-1", reportForName "Test-2", reportForName "Test-3"] rfl).2
     (reportFilePath "Test-1")⟩
